import Mathlib

/-!
Shallow embedding of the windows-process-monitor core
(`process_monitor.py` and `logging_manager.py`) and proofs of the
specification's claims about it.

Python dictionaries are modelled as insertion-ordered association lists,
`None`-able values as `Option`, raised-and-caught exceptions as explicit
result constructors, and file contents as in-memory values (`Option`
distinguishes "file does not exist" from "file exists with contents").
Python truthiness tests on integers and lists are modelled by explicit
comparisons with `0` / `[]`, matching the semantics of the source lines
they embed.
-/

namespace ProcMon

/-- Disk I/O counters of one process (dataclass `DiskIO` in
`process_monitor.py`; renamed to the spec's `DiskIOStats` to satisfy
naming conventions of this development). -/
structure DiskIOStats where
  read_bytes : Nat
  write_bytes : Nat
  read_count : Nat
  write_count : Nat
deriving DecidableEq

/-- Network connection statistics of one process (dataclass `NetworkIO`;
`connection_states` is the insertion-ordered state-name → count dict). -/
structure NetworkIOStats where
  connections_count : Nat
  established_connections : Nat
  listening_connections : Nat
  connection_states : List (String × Nat)
deriving DecidableEq

/-- Method `NetworkIO.total_connections`. -/
def NetworkIOStats.total_connections (n : NetworkIOStats) : Nat :=
  n.connections_count

/-- One process record (dataclass `ProcessInfo`). `cpu_percent` and
`memory_mb` are Python floats, modelled as rationals; `create_time` is
kept abstract as its rendered form. -/
structure ProcessInfo where
  pid : Nat
  name : String
  status : String
  cpu_percent : Rat
  memory_mb : Rat
  parent_pid : Option Nat
  create_time : String
  username : String
  disk_io_stats : Option DiskIOStats
  net_io_stats : Option NetworkIOStats
deriving DecidableEq

/-- Result of a per-process OS query: the call either raises one of the
caught psutil exceptions (`NoSuchProcess`, `AccessDenied`,
`AttributeError`) or returns a value. -/
inductive QueryResult (α : Type) where
  | raised
  | value (a : α)
deriving DecidableEq

/-- Raw `proc.io_counters()` value. The payload is optional because the
source guards the returned object with a truthiness test
(`if io_counters:`); `none` models a falsy counters object. -/
structure RawIOCounters where
  read_bytes : Nat
  write_bytes : Nat
  read_count : Nat
  write_count : Nat
deriving DecidableEq

/-- `ProcessMonitor.get_disk_io` (process_monitor.py lines 219-244):
on an exception, or when the counters object is falsy, the function
falls through and returns `None`; otherwise it packages the counters. -/
def get_disk_io_stats : QueryResult (Option RawIOCounters) → Option DiskIOStats
  | .raised => none
  | .value none => none
  | .value (some c) => some ⟨c.read_bytes, c.write_bytes, c.read_count, c.write_count⟩

/-- Python `dict[state] += 1 / dict[state] = 1` on an insertion-ordered
dict: bump the existing entry in place, else append a fresh entry. -/
def assocBump : List (String × Nat) → String → List (String × Nat)
  | [], s => [(s, 1)]
  | (k, v) :: rest, s =>
      if k = s then (k, v + 1) :: rest else (k, v) :: assocBump rest s

/-- One iteration of the `for conn in connections` loop of
`get_network_io`: tally the state into the dict, and bump the
`ESTABLISHED` / `LISTEN` counters (an `elif`, so at most one of them). -/
def conn_step (acc : List (String × Nat) × Nat × Nat) (s : String) :
    List (String × Nat) × Nat × Nat :=
  (assocBump acc.1 s,
   (if s = "ESTABLISHED" then acc.2.1 + 1 else acc.2.1),
   (if s = "ESTABLISHED" then acc.2.2
    else if s = "LISTEN" then acc.2.2 + 1 else acc.2.2))

/-- `ProcessMonitor.get_network_io` (lines 246-289). The input is the
outcome of `proc.connections()`, each connection abstracted to its
`status` string. An empty connection list is falsy (`if connections:`),
so it falls through to `return None` exactly like an exception. -/
def get_network_io_stats : QueryResult (List String) → Option NetworkIOStats
  | .raised => none
  | .value conns =>
      if conns = [] then none
      else
        let t := conns.foldl conn_step ([], 0, 0)
        some ⟨conns.length, t.2.1, t.2.2, t.1⟩

/-! ### Parent-child map and hierarchy (process_monitor.py lines 138-183) -/

/-- The `parent_child_map`: insertion-ordered dict from parent PID to the
list of its child PIDs. -/
abbrev PCMap := List (Nat × List Nat)

/-- Python `key in dict` plus `dict[key]` on the insertion-ordered map. -/
def assocFind : PCMap → Nat → Option (List Nat)
  | [], _ => none
  | (k, v) :: rest, key => if k = key then some v else assocFind rest key

/-- Python `dict[key] = value`: overwrite in place, else append. -/
def assocSet : PCMap → Nat → List Nat → PCMap
  | [], k, v => [(k, v)]
  | (k0, v0) :: rest, k, v =>
      if k0 = k then (k0, v) :: rest else (k0, v0) :: assocSet rest k v

/-- Python `dict.update(other)`: assign each of `other`'s items in order. -/
def dictUpdate (m sub : PCMap) : PCMap :=
  sub.foldl (fun acc kv => assocSet acc kv.1 kv.2) m

/-- One step of `_build_parent_child_map`'s loop: append `child` to the
parent's list, creating the entry when absent. -/
def addChild (m : PCMap) (pp child : Nat) : PCMap :=
  match assocFind m pp with
  | some cs => assocSet m pp (cs ++ [child])
  | none => m ++ [(pp, [child])]

/-- `ProcessMonitor._build_parent_child_map` (lines 138-146): group the
records by `parent_pid`, skipping records with no parent. -/
def build_parent_child_map (ps : List ProcessInfo) : PCMap :=
  ps.foldl
    (fun m p =>
      match p.parent_pid with
      | none => m
      | some pp => addChild m pp p.pid)
    []

/-- `ProcessMonitor._get_children_recursive` (lines 173-183), with an
explicit recursion-depth fuel: the Python function recurses without any
bound, so `none` marks fuel exhaustion (a run the Python code would not
complete on acyclic-depth-exceeding input). -/
def get_children_recursive : Nat → PCMap → Nat → Option PCMap
  | 0, _, _ => none
  | fuel + 1, m, parent =>
      match assocFind m parent with
      | none => some []
      | some children =>
          children.foldl
            (fun acc c =>
              match acc, get_children_recursive fuel m c with
              | some h, some sub => some (dictUpdate h sub)
              | _, _ => none)
            (some [(parent, children)])

/-- Failure modes of `get_process_hierarchy`: the `ValueError` that
`min()` raises on an empty sequence, and fuel exhaustion (model artifact
standing for unbounded recursion). -/
inductive HierErr where
  | emptyMin
  | fuelOut
deriving DecidableEq

/-- `min(p.pid for p in processes)`: raises on an empty sequence. -/
def minPidOf : List ProcessInfo → Option Nat
  | [] => none
  | p :: ps => some ((ps.map (·.pid)).foldl min p.pid)

/-- The `for root_pid in root_processes: hierarchy.update(...)` loop of
`get_process_hierarchy`. -/
def rootJoin (fuel : Nat) (m : PCMap) : List Nat → PCMap → Except HierErr PCMap
  | [], h => .ok h
  | r :: rs, h =>
      match get_children_recursive fuel m r with
      | none => .error .fuelOut
      | some sub => rootJoin fuel m rs (dictUpdate h sub)

/-- `ProcessMonitor.get_process_hierarchy` (lines 148-171). `processes`
and `m` embed the instance fields `self.processes` and
`self.parent_child_map`. -/
def get_process_hierarchy (fuel : Nat) (processes : List ProcessInfo)
    (m : PCMap) : Option Nat → Except HierErr PCMap
  | some r =>
      match get_children_recursive fuel m r with
      | none => .error .fuelOut
      | some h => .ok h
  | none =>
      let roots := (processes.filter fun p => p.parent_pid.isNone || p.pid == 1).map (·.pid)
      match (if roots = [] then
               match minPidOf processes with
               | none => Except.error HierErr.emptyMin
               | some mn => Except.ok [mn]
             else Except.ok roots) with
      | .error e => .error e
      | .ok rts => rootJoin fuel m rts []

/-! ### Logger (logging_manager.py) -/

/-- One CSV cell as handed to `csv.writer.writerow`: a Python string, an
integer, or a float pre-formatted with two decimals (`f"{x:.2f}"`). The
`fmt2` constructor carries the unformatted value; no claim inspects the
rendered digits. Integers and strings render differently (an integer
renders as digits only), so `nat` and `str` cells are distinct. -/
inductive CsvCell where
  | str (s : String)
  | nat (n : Nat)
  | fmt2 (q : Rat)
deriving DecidableEq

/-- The fixed header row written by `_initialize_csv_file` (lines 44-54). -/
def csvHeader : List CsvCell :=
  [.str "timestamp", .str "pid", .str "name", .str "status", .str "cpu_percent",
   .str "memory_mb", .str "parent_pid", .str "username", .str "disk_read_bytes",
   .str "disk_write_bytes", .str "disk_read_count", .str "disk_write_count",
   .str "network_connections", .str "network_established", .str "network_listening"]

/-- One data row of `_log_to_csv` (lines 87-115). `proc.parent_pid or ""`
writes the empty string both for `None` and for the falsy integer `0`;
absent I/O stats extract as the literal `0`. -/
def csvRowOf (ts : String) (p : ProcessInfo) : List CsvCell :=
  [.str ts,
   .nat p.pid,
   .str p.name,
   .str p.status,
   .fmt2 p.cpu_percent,
   .fmt2 p.memory_mb,
   (match p.parent_pid with
    | none => .str ""
    | some pp => if pp = 0 then .str "" else .nat pp),
   .str p.username,
   .nat (match p.disk_io_stats with | some d => d.read_bytes | none => 0),
   .nat (match p.disk_io_stats with | some d => d.write_bytes | none => 0),
   .nat (match p.disk_io_stats with | some d => d.read_count | none => 0),
   .nat (match p.disk_io_stats with | some d => d.write_count | none => 0),
   .nat (match p.net_io_stats with | some n => n.total_connections | none => 0),
   .nat (match p.net_io_stats with | some n => n.established_connections | none => 0),
   .nat (match p.net_io_stats with | some n => n.listening_connections | none => 0)]

/-- Models Python `round(x, 2)` on a float (value rounded to two decimal
places; the claims never depend on the tie-breaking direction). -/
def round2 (q : Rat) : Rat :=
  (round (q * 100) : Int) / 100

/-- The `disk_io` object of one JSON process entry (lines 139-144):
absent stats are flattened to literal zeros. -/
structure JsonDisk where
  read_bytes : Nat
  write_bytes : Nat
  read_count : Nat
  write_count : Nat
deriving DecidableEq

/-- The `network_io` object of one JSON process entry (lines 145-150). -/
structure JsonNet where
  connections : Nat
  established : Nat
  listening : Nat
  connection_states : List (String × Nat)
deriving DecidableEq

/-- One element of an entry's `processes` list (`process_data`,
lines 131-151). -/
structure JsonProc where
  pid : Nat
  name : String
  status : String
  cpu_percent : Rat
  memory_mb : Rat
  parent_pid : Option Nat
  username : String
  disk_io_json : JsonDisk
  network_io_json : JsonNet
deriving DecidableEq

/-- Build `process_data` from one record (lines 131-151). -/
def jsonProcOf (p : ProcessInfo) : JsonProc where
  pid := p.pid
  name := p.name
  status := p.status
  cpu_percent := round2 p.cpu_percent
  memory_mb := round2 p.memory_mb
  parent_pid := p.parent_pid
  username := p.username
  disk_io_json :=
    { read_bytes := match p.disk_io_stats with | some d => d.read_bytes | none => 0
      write_bytes := match p.disk_io_stats with | some d => d.write_bytes | none => 0
      read_count := match p.disk_io_stats with | some d => d.read_count | none => 0
      write_count := match p.disk_io_stats with | some d => d.write_count | none => 0 }
  network_io_json :=
    { connections := match p.net_io_stats with | some n => n.total_connections | none => 0
      established := match p.net_io_stats with | some n => n.established_connections | none => 0
      listening := match p.net_io_stats with | some n => n.listening_connections | none => 0
      connection_states := match p.net_io_stats with | some n => n.connection_states | none => [] }

/-- One timestamped entry of the document file (lines 124-128 and 152). -/
structure LogEntry where
  timestamp : String
  process_count : Nat
  processes : List JsonProc
deriving DecidableEq

/-- Build the entry `_log_to_json` appends for one tick. -/
def mkLogEntry (procs : List ProcessInfo) (ts : String) : LogEntry :=
  ⟨ts, procs.length, procs.map jsonProcOf⟩

/-- The whole document file (metadata written by `_initialize_json_file`,
lines 56-65). -/
structure JsonDoc where
  log_start_time : String
  log_interval_seconds : Nat
  entries : List LogEntry
deriving DecidableEq

/-- The CSV file on disk: `none` when it does not exist. -/
abbrev CsvState := Option (List (List CsvCell))

/-- The JSON file on disk: `none` when it does not exist. -/
abbrev JsonState := Option JsonDoc

/-- `_initialize_csv_file` (lines 44-54): write the header only when the
file does not exist. -/
def init_csv_file : CsvState → CsvState
  | none => some [csvHeader]
  | some rows => some rows

/-- `_initialize_json_file` (lines 56-65): write the metadata document
only when the file does not exist. -/
def init_json_file (now : String) (interval : Nat) : JsonState → JsonState
  | none => some ⟨now, interval, []⟩
  | some doc => some doc

/-- `LoggingManager.__init__` (lines 21-42), restricted to its file
effects: run both initializers. -/
def loggerInit (now : String) (interval : Nat) (st : CsvState × JsonState) :
    CsvState × JsonState :=
  (init_csv_file st.1, init_json_file now interval st.2)

/-- `_log_to_csv` (lines 82-115): open in append mode (which creates a
missing file) and append one row per record. -/
def log_to_csv (procs : List ProcessInfo) (ts : String) : CsvState → CsvState
  | none => some (procs.map (csvRowOf ts))
  | some rows => some (rows ++ procs.map (csvRowOf ts))

/-- `_log_to_json` (lines 117-159): read the whole document, push one
entry, write the whole document back. Opening a missing file for reading
raises, modelled as the absorbing `none`. -/
def log_to_json (procs : List ProcessInfo) (ts : String) : JsonState → JsonState
  | none => none
  | some doc => some { doc with entries := doc.entries ++ [mkLogEntry procs ts] }

/-- `log_processes` (lines 67-80): CSV first, then JSON. -/
def log_processes (procs : List ProcessInfo) (ts : String)
    (st : CsvState × JsonState) : CsvState × JsonState :=
  (log_to_csv procs ts st.1, log_to_json procs ts st.2)

/-- A sequence of logging ticks applied to the CSV file alone. -/
def runCsvTicks (s : CsvState) (ticks : List (List ProcessInfo × String)) : CsvState :=
  ticks.foldl (fun st t => log_to_csv t.1 t.2 st) s

/-- A sequence of logging ticks applied to the JSON file alone. -/
def runJsonTicks (s : JsonState) (ticks : List (List ProcessInfo × String)) : JsonState :=
  ticks.foldl (fun st t => log_to_json t.1 t.2 st) s

/-- Operations a Logger can apply to the CSV file over its lifetime:
re-initialization (a new `LoggingManager` on the same directory) or one
logging tick. -/
inductive CsvOp where
  | init
  | log (procs : List ProcessInfo) (ts : String)

/-- Apply a lifetime of CSV operations. -/
def runCsvOps (s : CsvState) (ops : List CsvOp) : CsvState :=
  ops.foldl
    (fun st op =>
      match op with
      | .init => init_csv_file st
      | .log procs ts => log_to_csv procs ts st)
    s

/-- Number of header rows in the CSV file. -/
def headerCountOf : CsvState → Nat
  | none => 0
  | some rows => rows.count csvHeader

/-! ### Continuous logging loop (logging_manager.py lines 161-194) -/

/-- The loop's stop test `if duration and (time.time() - start_time) >=
duration:` — `duration` is falsy both when `None` and when `0`, so a zero
duration never stops the loop. Elapsed time is abstracted to a natural
number of elapsed time units at the moment of the test. -/
def shouldStop : Option Nat → Nat → Bool
  | none, _ => false
  | some d, elapsed => decide (d ≠ 0) && decide (d ≤ elapsed)

/-- The environment's contribution to one tick: the sampled processes,
the timestamp, and the elapsed time observed at the stop test. -/
structure Tick where
  procs : List ProcessInfo
  ts : String
  elapsed : Nat

/-- `start_continuous_logging` (lines 161-194) over a finite trace of
tick observations: each iteration samples and records, then stops when
the stop test fires, and otherwise sleeps and continues. Returns the
final file states and the number of ticks executed. -/
def runLoop (duration : Option Nat) (st : CsvState × JsonState) :
    List Tick → (CsvState × JsonState) × Nat
  | [] => (st, 0)
  | t :: rest =>
      let st1 := log_processes t.procs t.ts st
      if shouldStop duration t.elapsed then (st1, 1)
      else
        let r := runLoop duration st1 rest
        (r.1, r.2 + 1)

/-! ### Derived quantities and sample data used by the verification -/

/-- Sum of the counts in a connection-state dict. -/
def sumStates : List (String × Nat) → Nat
  | [] => 0
  | kv :: rest => kv.2 + sumStates rest

/-- All data rows produced by a sequence of ticks, in order. -/
def ticksRows : List (List ProcessInfo × String) → List (List CsvCell)
  | [] => []
  | t :: rest => t.1.map (csvRowOf t.2) ++ ticksRows rest

/-- All document entries produced by a sequence of ticks, in order. -/
def entriesOf : List (List ProcessInfo × String) → List LogEntry
  | [] => []
  | t :: rest => mkLogEntry t.1 t.2 :: entriesOf rest

/-- A concrete record whose disk-I/O query failed. -/
def procNoDisk : ProcessInfo :=
  ⟨7, "a", "running", 0, 0, none, "t", "u", none, none⟩

/-- The same record with a genuine all-zero disk-I/O reading. -/
def procZeroDisk : ProcessInfo :=
  { procNoDisk with disk_io_stats := some ⟨0, 0, 0, 0⟩ }

/-- A concrete record whose parent PID is the literal 0. -/
def procParentZero : ProcessInfo :=
  ⟨9, "b", "sleeping", 0, 0, some 0, "t", "u", none, none⟩

/-- A minimal record with the given pid and parent pid. -/
def mkP (pid : Nat) (pp : Option Nat) : ProcessInfo :=
  ⟨pid, "p", "running", 0, 0, pp, "t", "u", none, none⟩

/-- The snapshot of the specification's hierarchy example:
pid 1 parentless, 2 and 3 children of 1, 4 child of 2. -/
def hierProcs : List ProcessInfo :=
  [mkP 1 none, mkP 2 (some 1), mkP 3 (some 1), mkP 4 (some 2)]

/-- A concrete document file. -/
def doc0 : JsonDoc := ⟨"s", 5, []⟩

/-- A concrete tick observed 3 time units after loop start. -/
def tickA : Tick := ⟨[], "t1", 3⟩

/-- A concrete tick observed 9 time units after loop start. -/
def tickB : Tick := ⟨[], "t2", 9⟩

/-! ## Shared lemmas -/

/-- A data row is never the header row: its pid cell is an integer cell
while the header's is the string cell `"pid"`. -/
theorem csvRowOf_ne_header (ts : String) (p : ProcessInfo) :
    csvRowOf ts p ≠ csvHeader := by
  intro h
  simp [csvRowOf, csvHeader] at h

/-- No data row of a tick counts as a header row. -/
theorem count_header_in_data (ts : String) (procs : List ProcessInfo) :
    (procs.map (csvRowOf ts)).count csvHeader = 0 := by
  rw [List.count_eq_zero]
  intro hmem
  obtain ⟨p, _, hp⟩ := List.mem_map.mp hmem
  exact csvRowOf_ne_header ts p hp

/-- Running ticks on an existing CSV file appends exactly the ticks'
data rows after the previous contents. -/
theorem runCsvTicks_some (ticks : List (List ProcessInfo × String)) :
    ∀ rows : List (List CsvCell),
      runCsvTicks (some rows) ticks = some (rows ++ ticksRows ticks) := by
  induction ticks with
  | nil => intro rows; simp [runCsvTicks, ticksRows]
  | cons t rest ih =>
      intro rows
      have hstep : log_to_csv t.1 t.2 (some rows) = some (rows ++ t.1.map (csvRowOf t.2)) := rfl
      calc runCsvTicks (some rows) (t :: rest)
          = runCsvTicks (log_to_csv t.1 t.2 (some rows)) rest := rfl
        _ = runCsvTicks (some (rows ++ t.1.map (csvRowOf t.2))) rest := by rw [hstep]
        _ = some ((rows ++ t.1.map (csvRowOf t.2)) ++ ticksRows rest) := ih _
        _ = some (rows ++ ticksRows (t :: rest)) := by
              rw [List.append_assoc]; rfl

/-- When every tick carries K records, the data rows number N times K. -/
theorem ticksRows_length (K : Nat) :
    ∀ ticks : List (List ProcessInfo × String),
      (∀ t ∈ ticks, t.1.length = K) →
      (ticksRows ticks).length = ticks.length * K := by
  intro ticks
  induction ticks with
  | nil => intro _; simp [ticksRows]
  | cons t rest ih =>
      intro h
      have ht : t.1.length = K := h t (List.mem_cons_self t rest)
      have hrest := ih fun u hu => h u (List.mem_cons_of_mem t hu)
      simp [ticksRows, ht, hrest, Nat.succ_mul]
      omega

/-- Any lifetime of re-initializations and logging ticks on an existing
CSV file preserves the number of header rows. -/
theorem headerCount_ops (ops : List CsvOp) :
    ∀ rows : List (List CsvCell),
      headerCountOf (runCsvOps (some rows) ops) = rows.count csvHeader := by
  induction ops with
  | nil => intro rows; rfl
  | cons op rest ih =>
      intro rows
      cases op with
      | init =>
          have : runCsvOps (some rows) (CsvOp.init :: rest) = runCsvOps (some rows) rest := rfl
          rw [this, ih rows]
      | log procs ts =>
          have : runCsvOps (some rows) (CsvOp.log procs ts :: rest)
              = runCsvOps (some (rows ++ procs.map (csvRowOf ts))) rest := rfl
          rw [this, ih _, List.count_append, count_header_in_data]
          omega

/-- Running ticks on an existing document appends exactly one entry per
tick and leaves the metadata fields alone. -/
theorem runJsonTicks_some (ticks : List (List ProcessInfo × String)) :
    ∀ doc : JsonDoc,
      runJsonTicks (some doc) ticks
        = some ⟨doc.log_start_time, doc.log_interval_seconds,
                doc.entries ++ entriesOf ticks⟩ := by
  induction ticks with
  | nil => intro doc; simp [runJsonTicks, entriesOf]
  | cons t rest ih =>
      intro doc
      have hstep : log_to_json t.1 t.2 (some doc)
          = some ⟨doc.log_start_time, doc.log_interval_seconds,
                  doc.entries ++ [mkLogEntry t.1 t.2]⟩ := rfl
      calc runJsonTicks (some doc) (t :: rest)
          = runJsonTicks (log_to_json t.1 t.2 (some doc)) rest := rfl
        _ = runJsonTicks (some ⟨doc.log_start_time, doc.log_interval_seconds,
              doc.entries ++ [mkLogEntry t.1 t.2]⟩) rest := by rw [hstep]
        _ = some ⟨doc.log_start_time, doc.log_interval_seconds,
              (doc.entries ++ [mkLogEntry t.1 t.2]) ++ entriesOf rest⟩ := ih _
        _ = some ⟨doc.log_start_time, doc.log_interval_seconds,
              doc.entries ++ entriesOf (t :: rest)⟩ := by
              rw [List.append_assoc]; rfl

/-- One entry per tick. -/
theorem entriesOf_length (ticks : List (List ProcessInfo × String)) :
    (entriesOf ticks).length = ticks.length := by
  induction ticks with
  | nil => rfl
  | cons t rest ih => simp [entriesOf, ih]

/-- Bumping a state's tally raises the dict's total by exactly one. -/
theorem sumStates_assocBump (s : String) :
    ∀ m : List (String × Nat), sumStates (assocBump m s) = sumStates m + 1 := by
  intro m
  induction m with
  | nil => rfl
  | cons kv rest ih =>
      by_cases hk : kv.1 = s
      · obtain ⟨k, v⟩ := kv
        simp only at hk
        simp [assocBump, hk, sumStates]
        omega
      · obtain ⟨k, v⟩ := kv
        simp only at hk
        simp [assocBump, hk, sumStates, ih]
        omega

/-- Invariant of the connection-tallying fold: the dict total grows by
one per connection, and the two special counters together grow by at
most one per connection. -/
theorem conn_fold_inv (conns : List String) :
    ∀ (m : List (String × Nat)) (e l : Nat),
      sumStates (conns.foldl conn_step (m, e, l)).1 = sumStates m + conns.length ∧
      (conns.foldl conn_step (m, e, l)).2.1 + (conns.foldl conn_step (m, e, l)).2.2
        ≤ e + l + conns.length := by
  induction conns with
  | nil => intro m e l; simp
  | cons c rest ih =>
      intro m e l
      have hstep : conn_step (m, e, l) c
          = (assocBump m c,
             (if c = "ESTABLISHED" then e + 1 else e),
             (if c = "ESTABLISHED" then l else if c = "LISTEN" then l + 1 else l)) := rfl
      have hfold : (c :: rest).foldl conn_step (m, e, l)
          = rest.foldl conn_step (conn_step (m, e, l) c) := rfl
      rw [hfold, hstep]
      obtain ⟨ih1, ih2⟩ := ih (assocBump m c)
        (if c = "ESTABLISHED" then e + 1 else e)
        (if c = "ESTABLISHED" then l else if c = "LISTEN" then l + 1 else l)
      refine ⟨?_, ?_⟩
      · rw [ih1, sumStates_assocBump]
        simp [List.length_cons]
        omega
      · refine le_trans ih2 ?_
        simp only [List.length_cons]
        by_cases h1 : c = "ESTABLISHED" <;> by_cases h2 : c = "LISTEN" <;>
          simp [h1, h2] <;> omega

/-- The per-root union loop can only fail for want of fuel, never with
the empty-sequence error. -/
theorem rootJoin_ne_emptyMin :
    ∀ (rs : List Nat) (fuel : Nat) (m h : PCMap),
      rootJoin fuel m rs h ≠ .error .emptyMin := by
  intro rs
  induction rs with
  | nil => intro fuel m h hc; simp [rootJoin] at hc
  | cons r rest ih =>
      intro fuel m h hc
      rw [rootJoin] at hc
      cases hgc : get_children_recursive fuel m r with
      | none => rw [hgc] at hc; simp at hc
      | some sub => rw [hgc] at hc; exact ih fuel m (dictUpdate h sub) hc

/-! ## Claim theorems -/

/-- C1 (counterexample): the claim asserts that the document file records
an absent disk-I/O reading explicitly, distinguishably from a genuine
all-zero reading. It does not: for the concrete record `procNoDisk`
(disk query failed) and `procZeroDisk` (disk read as genuinely zero),
`_log_to_json` produces identical process objects. -/
theorem json_disk_absent_not_distinguishable :
    procNoDisk.disk_io_stats = none ∧
    procZeroDisk.disk_io_stats = some ⟨0, 0, 0, 0⟩ ∧
    jsonProcOf procNoDisk = jsonProcOf procZeroDisk :=
  ⟨rfl, rfl, rfl⟩

/-- C1 (amended): a record whose disk-I/O query fails carries
`disk_io = absent`, and both the row file and the document file render
its disk data as literal zeros — the document file too is
indistinguishable from a genuine zero reading. -/
theorem disk_absent_renders_zero :
    ∀ (ts : String) (p : ProcessInfo),
      p.disk_io_stats = none →
      ((csvRowOf ts p).drop 8).take 4 = [.nat 0, .nat 0, .nat 0, .nat 0] ∧
      (jsonProcOf p).disk_io_json = ⟨0, 0, 0, 0⟩ ∧
      jsonProcOf p = jsonProcOf { p with disk_io_stats := some ⟨0, 0, 0, 0⟩ } := by
  intro ts p h
  refine ⟨?_, ?_, ?_⟩ <;> simp [csvRowOf, jsonProcOf, h]

/-- C1 (witness): the amended claim evaluated at the concrete failed-disk
record. -/
theorem disk_absent_renders_zero_witness :
    ((csvRowOf "t" procNoDisk).drop 8).take 4 = [.nat 0, .nat 0, .nat 0, .nat 0] ∧
    (jsonProcOf procNoDisk).disk_io_json = ⟨0, 0, 0, 0⟩ ∧
    jsonProcOf procNoDisk
      = jsonProcOf { procNoDisk with disk_io_stats := some ⟨0, 0, 0, 0⟩ } :=
  disk_absent_renders_zero "t" procNoDisk rfl

/-- C3: for every existing document file and every sequence of N ticks,
the run appends exactly one entry per tick: the final entries list is the
prior one extended by N entries, and the metadata fields
`log_start_time` and `log_interval_seconds` are unchanged. -/
theorem json_entries_growth :
    ∀ (doc : JsonDoc) (ticks : List (List ProcessInfo × String)),
      ∃ doc' : JsonDoc,
        runJsonTicks (some doc) ticks = some doc' ∧
        doc'.entries = doc.entries ++ entriesOf ticks ∧
        doc'.entries.length = doc.entries.length + ticks.length ∧
        doc'.log_start_time = doc.log_start_time ∧
        doc'.log_interval_seconds = doc.log_interval_seconds := by
  intro doc ticks
  refine ⟨⟨doc.log_start_time, doc.log_interval_seconds,
          doc.entries ++ entriesOf ticks⟩,
         runJsonTicks_some ticks doc, rfl, ?_, rfl, rfl⟩
  simp [entriesOf_length]

/-- C4: Logger initialization is idempotent with respect to existing
output files: when the row file exists its contents survive construction
unchanged, when the document file exists its contents survive unchanged,
and when both exist the whole state is untouched. -/
theorem logger_init_preserves_existing :
    ∀ (now : String) (interval : Nat) (rows : List (List CsvCell))
      (doc : JsonDoc) (cs : CsvState) (js : JsonState),
      (loggerInit now interval (some rows, js)).1 = some rows ∧
      (loggerInit now interval (cs, some doc)).2 = some doc ∧
      loggerInit now interval (some rows, some doc) = (some rows, some doc) := by
  intro now interval rows doc cs js
  exact ⟨rfl, rfl, rfl⟩

/-- C6: on the snapshot {1 parentless, 2 and 3 children of 1, 4 child of
2}, hierarchy derivation with no root returns exactly {1 ↦ [2,3],
2 ↦ [4]}, with no entries for the leaves 3 and 4. -/
theorem hierarchy_example_four_processes :
    get_process_hierarchy 5 hierProcs (build_parent_child_map hierProcs) none
      = Except.ok [(1, [2, 3]), (2, [4])] := by
  rfl

/-- C8: a successfully enumerated but empty connection list yields the
same absent result as a raised query; a present network result always
has a positive connection count; and the disk query likewise collapses a
falsy counters object and a raised query to the same absent result. -/
theorem zero_connections_reported_absent :
    get_network_io_stats (.value []) = none ∧
    get_network_io_stats .raised = none ∧
    (∀ (q : QueryResult (List String)) (n_st : NetworkIOStats),
       get_network_io_stats q = some n_st → 0 < n_st.connections_count) ∧
    get_disk_io_stats (.value none) = none ∧
    get_disk_io_stats .raised = none := by
  refine ⟨rfl, rfl, ?_, rfl, rfl⟩
  intro q n_st h
  cases q with
  | raised => simp [get_network_io_stats] at h
  | value conns =>
      by_cases hc : conns = []
      · simp [get_network_io_stats, hc] at h
      · simp [get_network_io_stats, hc] at h
        rw [← h]
        exact List.length_pos.mpr hc

/-- C8 (witness): the positive-count consequence evaluated on a
one-connection query. -/
theorem zero_connections_reported_absent_witness :
    get_network_io_stats (.value ["LISTEN"]) = some ⟨1, 0, 1, [("LISTEN", 1)]⟩ ∧
    0 < (1 : Nat) :=
  ⟨rfl, zero_connections_reported_absent.2.2.1 (.value ["LISTEN"])
          ⟨1, 0, 1, [("LISTEN", 1)]⟩ rfl⟩

/-- C9: a record whose parent PID is the literal 0 writes the empty
string in the row file's parent column, making its whole row identical
to the row of the same record with no parent at all. -/
theorem parent_pid_zero_blank :
    ∀ (ts : String) (p : ProcessInfo),
      p.parent_pid = some 0 →
      csvRowOf ts p = csvRowOf ts { p with parent_pid := none } ∧
      (csvRowOf ts p)[6]? = some (.str "") := by
  intro ts p h
  refine ⟨?_, ?_⟩ <;> simp [csvRowOf, h]

/-- C9 (witness): the parent-0 row evaluated on a concrete record. -/
theorem parent_pid_zero_blank_witness :
    csvRowOf "t" procParentZero
      = csvRowOf "t" { procParentZero with parent_pid := none } ∧
    (csvRowOf "t" procParentZero)[6]? = some (.str "") :=
  parent_pid_zero_blank "t" procParentZero rfl

/-- C10: hierarchy derivation with no root given raises on an empty
snapshot (the smallest-PID fallback takes `min` of an empty sequence),
and that error cannot occur when the snapshot holds at least one
process. -/
theorem hierarchy_raises_on_empty_snapshot :
    (∀ (fuel : Nat) (m : PCMap),
       get_process_hierarchy fuel [] m none = .error .emptyMin) ∧
    (∀ (fuel : Nat) (ps : List ProcessInfo) (m : PCMap),
       ps ≠ [] → get_process_hierarchy fuel ps m none ≠ .error .emptyMin) := by
  refine ⟨fun fuel m => rfl, ?_⟩
  intro fuel ps m hne
  rw [get_process_hierarchy]
  by_cases hr : ((ps.filter fun p => p.parent_pid.isNone || p.pid == 1).map (·.pid)) = []
  · rw [if_pos hr]
    obtain ⟨p, tl, rfl⟩ := List.exists_cons_of_ne_nil hne
    exact rootJoin_ne_emptyMin _ fuel m []
  · rw [if_neg hr]
    exact rootJoin_ne_emptyMin _ fuel m []

/-- C10 (witness): the nonempty-snapshot side evaluated on a
one-process snapshot. -/
theorem hierarchy_raises_on_empty_snapshot_witness :
    get_process_hierarchy 1 [] [] none = .error .emptyMin ∧
    get_process_hierarchy 1 [procNoDisk] [] none ≠ .error .emptyMin :=
  ⟨hierarchy_raises_on_empty_snapshot.1 1 [],
   hierarchy_raises_on_empty_snapshot.2 1 [procNoDisk] [] (by simp)⟩

/-- C2: for every prior row-file contents and every sequence of N ticks
of K records each, the run leaves the prior rows in place and appends
exactly N × K data rows; and from a fresh directory, any lifetime of
re-initializations and ticks leaves exactly one header row. -/
theorem csv_append_monotonic_single_header :
    (∀ (rows : List (List CsvCell)) (ticks : List (List ProcessInfo × String)) (K : Nat),
       (∀ t ∈ ticks, t.1.length = K) →
       runCsvTicks (some rows) ticks = some (rows ++ ticksRows ticks) ∧
       (rows ++ ticksRows ticks).length = rows.length + ticks.length * K) ∧
    (∀ ops : List CsvOp, headerCountOf (runCsvOps (init_csv_file none) ops) = 1) := by
  constructor
  · intro rows ticks K h
    refine ⟨runCsvTicks_some ticks rows, ?_⟩
    rw [List.length_append, ticksRows_length K ticks h]
  · intro ops
    have : init_csv_file none = some [csvHeader] := rfl
    rw [this, headerCount_ops ops [csvHeader]]
    simp

/-- C2 (witness): one tick of one record on a freshly initialized file,
followed by a redundant re-initialization. -/
theorem csv_append_monotonic_single_header_witness :
    runCsvTicks (some [csvHeader]) [([procNoDisk], "t1")]
      = some ([csvHeader] ++ ticksRows [([procNoDisk], "t1")]) ∧
    ([csvHeader] ++ ticksRows [([procNoDisk], "t1")]).length
      = [csvHeader].length + [([procNoDisk], "t1")].length * 1 ∧
    headerCountOf (runCsvOps (init_csv_file none)
      [CsvOp.init, CsvOp.log [procNoDisk] "t1"]) = 1 := by
  have h := csv_append_monotonic_single_header.1 [csvHeader]
    [([procNoDisk], "t1")] 1 (by simp)
  exact ⟨h.1, h.2,
    csv_append_monotonic_single_header.2 [CsvOp.init, CsvOp.log [procNoDisk] "t1"]⟩

/-- C5: every present network-I/O result satisfies
`established + listening ≤ connection_count`, and the counts in its
connection-state dict sum to `connection_count`. -/
theorem network_counts_invariant :
    ∀ (q : QueryResult (List String)) (n_st : NetworkIOStats),
      get_network_io_stats q = some n_st →
      n_st.established_connections + n_st.listening_connections
        ≤ n_st.connections_count ∧
      sumStates n_st.connection_states = n_st.connections_count := by
  intro q n_st h
  cases q with
  | raised => simp [get_network_io_stats] at h
  | value conns =>
      by_cases hc : conns = []
      · simp [get_network_io_stats, hc] at h
      · simp [get_network_io_stats, hc] at h
        obtain ⟨hsum, hle⟩ := conn_fold_inv conns [] 0 0
        rw [← h]
        constructor
        · simpa using hle
        · simpa [sumStates] using hsum

/-- C5 (witness): the invariant evaluated on a concrete three-connection
query. -/
theorem network_counts_invariant_witness :
    1 + 1 ≤ 3 ∧
    sumStates [("ESTABLISHED", 1), ("LISTEN", 1), ("CLOSE_WAIT", 1)] = 3 :=
  network_counts_invariant (.value ["ESTABLISHED", "LISTEN", "CLOSE_WAIT"])
    ⟨3, 1, 1, [("ESTABLISHED", 1), ("LISTEN", 1), ("CLOSE_WAIT", 1)]⟩ rfl

/-- C7 (counterexample): the claim asserts the loop stops at any tick
whose elapsed time meets a set bound, including a bound of 0. With a
bound of 0 the stop test `if duration and ...` is falsy, so the loop
runs past the first tick (elapsed 3 ≥ 0) and executes a second one. -/
theorem zero_duration_loop_continues :
    0 ≤ tickA.elapsed ∧
    (runLoop (some 0) (some [csvHeader], some doc0) [tickA, tickB]).2 = 2 :=
  ⟨Nat.zero_le _, rfl⟩

/-- C7 (amended): with a NONZERO duration bound d, the stop test is
exactly `elapsed ≥ d`, and the loop never continues past a tick whose
elapsed time meets the bound: on any trace whose tick at position i
meets the bound, at most i+1 ticks execute. A bound of 0, like no bound,
never stops the loop. -/
theorem loop_stops_at_nonzero_bound :
    ∀ d : Nat, 0 < d →
      (∀ e : Nat, shouldStop (some d) e = decide (d ≤ e)) ∧
      (∀ (st : CsvState × JsonState) (pre : List Tick) (t : Tick)
         (suff : List Tick), d ≤ t.elapsed →
         (runLoop (some d) st (pre ++ t :: suff)).2 ≤ pre.length + 1) := by
  intro d hd
  have hstop : ∀ e : Nat, shouldStop (some d) e = decide (d ≤ e) := by
    intro e
    simp [shouldStop]
    omega
  refine ⟨hstop, ?_⟩
  intro st pre
  induction pre generalizing st with
  | nil =>
      intro t suff ht
      have : shouldStop (some d) t.elapsed = true := by
        rw [hstop]; simpa using ht
      simp [runLoop, this]
  | cons u rest ih =>
      intro t suff ht
      rw [List.cons_append, runLoop]
      by_cases hu : shouldStop (some d) u.elapsed
      · rw [if_pos hu]
        simp
      · rw [if_neg hu]
        have := ih (log_processes u.procs u.ts st) t suff ht
        simp only [List.length_cons]
        omega

/-- C7 (witness): the amended stop rule evaluated at bound 2 on a trace
whose first tick already meets the bound. -/
theorem loop_stops_at_nonzero_bound_witness :
    shouldStop (some 2) 0 = decide ((2 : Nat) ≤ 0) ∧
    (runLoop (some 2) (some [csvHeader], some doc0) ([] ++ tickA :: [tickB])).2
      ≤ ([] : List Tick).length + 1 := by
  have h := loop_stops_at_nonzero_bound 2 (by decide)
  exact ⟨h.1 0, h.2 (some [csvHeader], some doc0) [] tickA [tickB] (by decide)⟩

end ProcMon
